import Mathlib

/-!
Verification of the codex session-orchestration layer.

Shallow embedding of the session wiring code:
* `codex-rs/tui/src/chatwidget/agent.rs` — `run_session_loops`,
  `spawn_op_submit_loop`, `spawn_agent`;
* `codex-rs/core/src/session_io.rs` — `ChannelEventSink::emit_event`,
  `RolloutFileStorage::save` / `flush`;
* `codex-rs/core/src/entropy.rs` — `entropy_uuid`, `entropy_now`,
  `SystemClock::unix_millis`, the task-local `ENTROPY` scope.

Asynchronous loops are embedded as functions over the finite trace of results
the backend produces; task-local scoping is embedded as an explicit per-task
binding; fallible Rust calls return `Except`.
-/

namespace Codex

/-- An operation submitted by the consumer; opaque to the orchestration layer. -/
structure Op where
  payload : Nat
deriving DecidableEq, Repr

/-- The `SessionConfigured` payload captured at session construction. -/
structure SessionConfiguredEvent where
  sessionId : String
deriving DecidableEq, Repr

/-- Event discriminants the layer inspects (`SessionConfigured`,
`ShutdownComplete`, `Error`); everything else is opaque (`other`). -/
inductive EventMsg where
  | sessionConfigured (sc : SessionConfiguredEvent)
  | shutdownComplete
  | error (message : String)
  | other (payload : Nat)
deriving DecidableEq, Repr

/-- Protocol event: an id plus a message (`Event`). -/
structure Event where
  id : String
  msg : EventMsg
deriving DecidableEq, Repr

/-- Variants of `AppEvent` the wiring code sends to the TUI consumer. -/
inductive AppEvent where
  | codexEvent (e : Event)
  | fatalExitRequest (message : String)
deriving DecidableEq, Repr

/-- Test `matches!(event.msg, EventMsg::ShutdownComplete)` from `run_session_loops`. -/
def isShutdownComplete : EventMsg → Bool
  | EventMsg.shutdownComplete => true
  | _ => false

/-- Number of `ShutdownComplete` events in a forwarded list. -/
def countShutdown (l : List Event) : Nat :=
  (l.filter (fun e => isShutdownComplete e.msg)).length

/-- The event-forward half of `run_session_loops` (agent.rs lines 62–70):
`while let Ok(event) = session.next_event().await { send(event);
if is_shutdown_complete { break } }`.

The backend is embedded as the finite trace of successive `next_event`
results.  Returns the events forwarded to the consumer and the number of
`next_event` invocations the loop made.
-/
def eventForwardLoop : List (Except String Event) → List Event × Nat
  | [] => ([], 0)
  | Except.error _ :: _ => ([], 1)
  | Except.ok e :: rest =>
      if isShutdownComplete e.msg then ([e], 1)
      else
        let r := eventForwardLoop rest
        (e :: r.1, r.2 + 1)

/-- The `Event` value `run_session_loops` builds from the captured
`SessionConfigured` payload: a fake empty id plus the payload. -/
def sessionConfiguredAppEvent (sc : SessionConfiguredEvent) : AppEvent :=
  AppEvent.codexEvent { id := "", msg := EventMsg.sessionConfigured sc }

/-- Consumer-visible event stream of `run_session_loops` (agent.rs lines 46–71):
the synthesized `SessionConfigured` event is sent first, before the op-submit
loop is spawned and before the event-forward loop runs; then every event the
forward loop produces follows, in order.
-/
def run_session_loops (sc : SessionConfiguredEvent)
    (backend : List (Except String Event)) : List AppEvent :=
  sessionConfiguredAppEvent sc ::
    (eventForwardLoop backend).1.map AppEvent.codexEvent

/-- Trace left by the op-submit loop: the ops passed to `submit` in order,
the error logs, and the events it sends to the consumer. -/
structure SubmitTrace where
  submitted : List Op
  errorLogs : List String
  consumerEvents : List AppEvent
deriving DecidableEq, Repr

/-- Discriminator for `Except.error` submit outcomes. -/
def isErr {ε α : Type} : Except ε α → Bool
  | Except.error _ => true
  | Except.ok _ => false

/-- Embedding of `spawn_op_submit_loop` (agent.rs lines 74–85):
`while let Some(op) = codex_op_rx.recv().await { if let Err(e) =
session.submit(op).await { tracing::error!(...) } }`.

The per-op response of the backend is embedded as `submitRes`.  Nothing is
ever sent to the consumer from this loop.
-/
def spawn_op_submit_loop (submitRes : Op → Except String String) :
    List Op → SubmitTrace
  | [] => { submitted := [], errorLogs := [], consumerEvents := [] }
  | op :: rest =>
      let r := spawn_op_submit_loop submitRes rest
      { submitted := op :: r.submitted
        errorLogs :=
          match submitRes op with
          | Except.ok _ => r.errorLogs
          | Except.error e => ("failed to submit op: " ++ e) :: r.errorLogs
        consumerEvents := [] }

/-- Typed initialization error from `server.start_thread`. -/
structure InitError where
  message : String
deriving DecidableEq, Repr

/-- Embedding of `err.to_error_event(None)` — the `Error` event payload built
from the initialization error. -/
def InitError.toErrorEvent (err : InitError) : EventMsg :=
  EventMsg.error err.message

/-- Successful result of `server.start_thread`: the session handle is embedded
as its `next_event` trace, paired with the captured `SessionConfigured`. -/
structure NewThread where
  sessionConfigured : SessionConfiguredEvent
  backend : List (Except String Event)

/-- Observable outcome of the task spawned by `spawn_agent`. -/
structure AgentRun where
  consumerEvents : List AppEvent
  constructionAttempts : Nat
  enteredRunning : Bool
  forwardingTasksSpawned : Bool

/-- Embedding of `spawn_agent` (agent.rs lines 89–126): construct the session
once; on failure
send one synthesized `Error` event and one `FatalExitRequest` and return; on
success run `run_session_loops`.
-/
def spawn_agent (startThread : Except InitError NewThread) : AgentRun :=
  match startThread with
  | Except.error err =>
      { consumerEvents :=
          [AppEvent.codexEvent { id := "", msg := err.toErrorEvent },
           AppEvent.fatalExitRequest
             ("Failed to initialize codex: " ++ err.message)]
        constructionAttempts := 1
        enteredRunning := false
        forwardingTasksSpawned := false }
  | Except.ok nt =>
      { consumerEvents := run_session_loops nt.sessionConfigured nt.backend
        constructionAttempts := 1
        enteredRunning := true
        forwardingTasksSpawned := true }

/-- Does an `AppEvent` carry an `Error` event? -/
def isErrorEvent : AppEvent → Bool
  | AppEvent.codexEvent e =>
      match e.msg with
      | EventMsg.error _ => true
      | _ => false
  | _ => false

/-- Does an `AppEvent` carry a `SessionConfigured` event? -/
def isSessionConfiguredEvent : AppEvent → Bool
  | AppEvent.codexEvent e =>
      match e.msg with
      | EventMsg.sessionConfigured _ => true
      | _ => false
  | _ => false

/-- Is an `AppEvent` a `FatalExitRequest`? -/
def isFatalExit : AppEvent → Bool
  | AppEvent.fatalExitRequest _ => true
  | _ => false

/-- Severity levels of the `tracing` log macros used in the sources. -/
inductive LogLevel where
  | debug
  | warn
  | error
deriving DecidableEq, Repr

/-- One log record: severity plus message. -/
structure LogEntry where
  level : LogLevel
  message : String
deriving DecidableEq, Repr

/-- State of the `async_channel::Sender<Event>` wrapped by
`ChannelEventSink`: whether the receiving side is still connected, and the
events delivered so far. -/
structure ChannelState where
  connected : Bool
  delivered : List Event
deriving DecidableEq, Repr

/-- Embedding of `ChannelEventSink::emit_event` (session_io.rs lines 43–47):
`if let Err(e) = self.tx.send(event).await { debug!("dropping event because
channel is closed: {e}") }`.  Always returns normally; on a disconnected
channel the event is dropped and a debug-level log is produced.
-/
def ChannelEventSink.emit_event (st : ChannelState) (event : Event) :
    ChannelState × List LogEntry :=
  if st.connected then
    ({ st with delivered := st.delivered ++ [event] }, [])
  else
    (st, [{ level := LogLevel.debug
            message := "dropping event because channel is closed" }])

/-- One append-only history record; opaque contents. -/
structure RolloutItem where
  payload : Nat
deriving DecidableEq, Repr

/-- The `RolloutRecorder` handle, embedded by the outcomes of its fallible
operations: `record_items` per item batch, `flush`. -/
structure RolloutRecorder where
  recordItems : List RolloutItem → Except String Unit
  flushResult : Except String Unit

/-- Embedding of `RolloutFileStorage::save` (session_io.rs lines 84–94):
snapshot the optional
recorder, call `record_items`, log a failure at error severity and return
normally.  Returns the logs produced by the call.
-/
def RolloutFileStorage.save (recorder : Option RolloutRecorder)
    (items : List RolloutItem) : List LogEntry :=
  match recorder with
  | none => []
  | some r =>
      match r.recordItems items with
      | Except.ok _ => []
      | Except.error e =>
          [{ level := LogLevel.error
             message := "failed to record rollout items: " ++ e }]

/-- Embedding of `RolloutFileStorage::flush` (session_io.rs lines 96–106):
like `save` but a flush failure is logged at warning severity. -/
def RolloutFileStorage.flush (recorder : Option RolloutRecorder) :
    List LogEntry :=
  match recorder with
  | none => []
  | some r =>
      match r.flushResult with
      | Except.ok _ => []
      | Except.error e =>
          [{ level := LogLevel.warn
             message := "failed to flush rollout recorder: " ++ e }]

/-- One call issued by the control loop to the storage backend. -/
inductive StorageCall where
  | save (items : List RolloutItem)
  | flush

/-- Run a sequence of storage calls against the backend, collecting the logs
and counting the calls that were attempted (every failure is swallowed, so
the loop continues past it). -/
def runStorageCalls (recorder : Option RolloutRecorder) :
    List StorageCall → List LogEntry × Nat
  | [] => ([], 0)
  | StorageCall.save items :: rest =>
      let here := RolloutFileStorage.save recorder items
      let r := runStorageCalls recorder rest
      (here ++ r.1, r.2 + 1)
  | StorageCall.flush :: rest =>
      let here := RolloutFileStorage.flush recorder
      let r := runStorageCalls recorder rest
      (here ++ r.1, r.2 + 1)

/-- Paired random source and clock bound to one control-loop scope
(`EntropyProviders`).  Successive calls of a trait object are embedded as
streams indexed by the per-scope call count. -/
structure EntropyProviders where
  randomUuid : Nat → String
  clockNow : Nat → Nat

/-- Ambient system values backing the out-of-scope fallbacks
(`Uuid::new_v4()` and `Instant::now()`). -/
structure SystemEnv where
  freshUuid : String
  instantNow : Nat

/-- Embedding of `entropy_uuid` (entropy.rs lines 118–122):
`ENTROPY.try_with(|e| e.random.uuid()).unwrap_or_else(|_|
Uuid::new_v4().to_string())`.  The task-local binding is embedded as an
explicit `Option EntropyProviders`; `callIdx` is the uuid-call count of the
caller scope.
-/
def entropy_uuid (scope : Option EntropyProviders) (callIdx : Nat)
    (sys : SystemEnv) : String :=
  match scope with
  | some e => e.randomUuid callIdx
  | none => sys.freshUuid

/-- Embedding of `entropy_now` (entropy.rs lines 127–131):
`ENTROPY.try_with(|e| e.clock.now()).unwrap_or_else(|_| Instant::now())`.
-/
def entropy_now (scope : Option EntropyProviders) (callIdx : Nat)
    (sys : SystemEnv) : Nat :=
  match scope with
  | some e => e.clockNow callIdx
  | none => sys.instantNow

/-- Interleaved execution of two tasks, each running inside its own
`EntropyProviders` scope (the `tokio::task_local!` `ENTROPY` binding is
per-task).  `sched` picks at each step which task performs its next call of
the accessor `acc` (`entropy_uuid` or `entropy_now`); `ca`/`cb` are the call
counts of the two tasks so far.  Records, per step, which task called and
the value it observed.
-/
def runScopedCalls {α : Type} (acc : Option EntropyProviders → Nat → SystemEnv → α)
    (a b : EntropyProviders) (sys : SystemEnv) :
    List Bool → Nat → Nat → List (Bool × α)
  | [], _, _ => []
  | true :: rest, ca, cb =>
      (true, acc (some a) ca sys) :: runScopedCalls acc a b sys rest (ca + 1) cb
  | false :: rest, ca, cb =>
      (false, acc (some b) cb sys) :: runScopedCalls acc a b sys rest ca (cb + 1)

/-- Values observed by task A (`who = true`) or B (`who = false`) in an
interleaved run. -/
def observedBy {α : Type} (who : Bool) (l : List (Bool × α)) : List α :=
  (l.filter (fun p => p.1 == who)).map (fun p => p.2)

/-- Embedding of `SystemTime::now().duration_since(UNIX_EPOCH)` — fails
exactly when the wall clock is before the Unix epoch.  The wall clock is
embedded as nanoseconds since the epoch (negative when before it). -/
def durationSinceEpoch (nowNanos : Int) : Except Unit Nat :=
  if nowNanos < 0 then Except.error () else Except.ok nowNanos.toNat

/-- Embedding of `SystemClock::unix_millis` (entropy.rs lines 78–83):
`duration_since(UNIX_EPOCH).map(|d| d.as_millis() as u64).unwrap_or(0)`.
`as_millis` divides nanoseconds by 10^6; the `as u64` cast truncates
modulo 2^64.
-/
def SystemClock.unix_millis (nowNanos : Int) : Nat :=
  match durationSinceEpoch nowNanos with
  | Except.ok d => (d / 1000000) % 2 ^ 64
  | Except.error _ => 0

/-!  ## Theorems  -/

/-- C1: for every session wired through `run_session_loops`, the synthesized
`SessionConfigured` event is the first event the consumer observes, for every
backend event trace — in particular even when a backend-produced event is
already available at wiring time (a nonempty `backend`). -/
theorem sessionConfigured_is_first_consumer_event (sc : SessionConfiguredEvent)
    (backend : List (Except String Event)) :
    (run_session_loops sc backend).head? = some (sessionConfiguredAppEvent sc) :=
  rfl

/-- C3: the op-submit loop passes every op to `submit` exactly once, in queue
order; each `SubmitError` produces one error log and does not stop the
processing of later ops; nothing is ever surfaced to the consumer. -/
theorem submit_loop_order_and_error_policy (f : Op → Except String String)
    (ops : List Op) :
    (spawn_op_submit_loop f ops).submitted = ops ∧
    (spawn_op_submit_loop f ops).consumerEvents = [] ∧
    (spawn_op_submit_loop f ops).errorLogs.length =
      (ops.filter (fun op => isErr (f op))).length := by
  refine ⟨?_, ?_, ?_⟩
  · induction ops with
    | nil => rfl
    | cons op rest ih => simp [spawn_op_submit_loop, ih]
  · cases ops <;> rfl
  · induction ops with
    | nil => rfl
    | cons op rest ih =>
        cases h : f op <;>
          simp [spawn_op_submit_loop, List.filter_cons, isErr, h, ih]

/-- C4: when session construction fails, `spawn_agent` emits exactly one
synthesized `Error` event followed by exactly one fatal-exit signal and
stops: no `SessionConfigured` event, no forwarding tasks, a single
construction attempt, never entering Running. -/
theorem spawn_agent_init_failure_policy (err : InitError) :
    (spawn_agent (Except.error err)).consumerEvents =
      [AppEvent.codexEvent { id := "", msg := EventMsg.error err.message },
       AppEvent.fatalExitRequest
         ("Failed to initialize codex: " ++ err.message)] ∧
    ((spawn_agent (Except.error err)).consumerEvents.filter
      isErrorEvent).length = 1 ∧
    ((spawn_agent (Except.error err)).consumerEvents.filter
      isFatalExit).length = 1 ∧
    ((spawn_agent (Except.error err)).consumerEvents.filter
      isSessionConfiguredEvent).length = 0 ∧
    (spawn_agent (Except.error err)).constructionAttempts = 1 ∧
    (spawn_agent (Except.error err)).enteredRunning = false ∧
    (spawn_agent (Except.error err)).forwardingTasksSpawned = false := by
  refine ⟨rfl, ?_, ?_, ?_, rfl, rfl, rfl⟩ <;>
    simp [spawn_agent, InitError.toErrorEvent, List.filter,
      isErrorEvent, isFatalExit, isSessionConfiguredEvent]

/-- C6: `emit_event` never surfaces an error to the caller: on a disconnected
channel the event is dropped (the delivered list is unchanged) and exactly one
debug-level (non-error) log is produced; on a connected channel the event is
delivered and nothing is logged. -/
theorem emit_event_never_blocks_or_errors (delivered : List Event)
    (event : Event) :
    ChannelEventSink.emit_event
        { connected := false, delivered := delivered } event =
      ({ connected := false, delivered := delivered },
       [{ level := LogLevel.debug
          message := "dropping event because channel is closed" }]) ∧
    ChannelEventSink.emit_event
        { connected := true, delivered := delivered } event =
      ({ connected := true, delivered := delivered ++ [event] }, []) :=
  ⟨rfl, rfl⟩

/-- C7: a `save` failure is logged at error severity and `save` returns
normally (its only output is the log list — nothing is raised), and every
call in a sequence of `save`/`flush` calls is still attempted whatever the
recorder outcomes are. -/
theorem storage_save_failure_swallowed (recorder : Option RolloutRecorder)
    (items : List RolloutItem) (calls : List StorageCall) :
    (RolloutFileStorage.save recorder items = [] ∨
      ∃ m, RolloutFileStorage.save recorder items =
        [{ level := LogLevel.error, message := m }]) ∧
    (runStorageCalls recorder calls).2 = calls.length := by
  constructor
  · cases recorder with
    | none => exact Or.inl rfl
    | some r =>
        cases h : r.recordItems items with
        | ok _ => exact Or.inl (by simp [RolloutFileStorage.save, h])
        | error e =>
            exact Or.inr ⟨"failed to record rollout items: " ++ e,
              by simp [RolloutFileStorage.save, h]⟩
  · induction calls with
    | nil => rfl
    | cons c rest ih => cases c <;> simp [runStorageCalls, ih]

/-- C8: outside any active scope the accessors fall back to the system values
(`Uuid::new_v4()`, `Instant::now()`) instead of failing; within an active
scope they return the values of the scoped providers. -/
theorem entropy_accessors_scope_and_fallback (sys : SystemEnv) (i : Nat)
    (e : EntropyProviders) :
    entropy_uuid none i sys = sys.freshUuid ∧
    entropy_now none i sys = sys.instantNow ∧
    entropy_uuid (some e) i sys = e.randomUuid i ∧
    entropy_now (some e) i sys = e.clockNow i :=
  ⟨rfl, rfl, rfl, rfl⟩

/-- C10: `SystemClock::unix_millis` never fails: when the wall clock is before
the Unix epoch (so `duration_since` fails) it returns `0`, and otherwise it
returns the elapsed milliseconds truncated to `u64`. -/
theorem unix_millis_total_and_epoch_fallback (t : Int) :
    (t < 0 → SystemClock.unix_millis t = 0) ∧
    (0 ≤ t → SystemClock.unix_millis t = (t.toNat / 1000000) % 2 ^ 64) := by
  constructor
  · intro h
    simp [SystemClock.unix_millis, durationSinceEpoch, h]
  · intro h
    simp [SystemClock.unix_millis, durationSinceEpoch, not_lt.mpr h]

/-- Witness for C10: a wall clock 5 nanoseconds before the epoch yields 0, and
a clock at 2.5 milliseconds past the epoch yields 2. -/
theorem unix_millis_total_and_epoch_fallback_wit :
    (-5 : Int) < 0 ∧ SystemClock.unix_millis (-5) = 0 ∧
    (0 : Int) ≤ 2500000 ∧ SystemClock.unix_millis 2500000 = 2 :=
  ⟨by decide, (unix_millis_total_and_epoch_fallback (-5)).1 (by decide),
   by decide,
   by rw [(unix_millis_total_and_epoch_fallback 2500000).2 (by decide)]; rfl⟩

/-- C2: the event-forward loop forwards at most one `ShutdownComplete`, and
when it forwards one, that event is the last thing forwarded (it reaches the
consumer before the task ends) and the loop made exactly one `next_event`
call per forwarded event — so no `next_event` call happens after
`ShutdownComplete` is observed, and the loop (holding the Session reference)
ends there. -/
theorem shutdown_complete_unique_terminal (s : List (Except String Event)) :
    countShutdown (eventForwardLoop s).1 ≤ 1 ∧
    (∀ e, e ∈ (eventForwardLoop s).1 → isShutdownComplete e.msg = true →
      ∃ pre, (eventForwardLoop s).1 = pre ++ [e] ∧ countShutdown pre = 0 ∧
        (eventForwardLoop s).2 = pre.length + 1) := by
  induction s with
  | nil =>
      exact ⟨by simp [eventForwardLoop, countShutdown],
        by simp [eventForwardLoop]⟩
  | cons x rest ih =>
      cases x with
      | error m =>
          exact ⟨by simp [eventForwardLoop, countShutdown],
            by simp [eventForwardLoop]⟩
      | ok e =>
          by_cases h : isShutdownComplete e.msg = true
          · constructor
            · simp [eventForwardLoop, h, countShutdown, List.filter]
            · intro e' he' _
              simp [eventForwardLoop, h] at he'
              subst he'
              exact ⟨[], by simp [eventForwardLoop, h],
                by simp [countShutdown], by simp [eventForwardLoop, h]⟩
          · have hf : isShutdownComplete e.msg = false :=
              Bool.not_eq_true _ ▸ eq_false_of_ne_true h
            constructor
            · simpa [eventForwardLoop, hf, countShutdown, List.filter_cons]
                using ih.1
            · intro e' he' hsd
              simp [eventForwardLoop, hf] at he'
              rcases he' with he' | he'
              · exact absurd hsd (by simp [he', hf])
              · obtain ⟨pre, hpre, hcount, hcalls⟩ := ih.2 e' he' hsd
                refine ⟨e :: pre, ?_, ?_, ?_⟩
                · simp [eventForwardLoop, hf, hpre]
                · simp [countShutdown, List.filter_cons, hf] at hcount ⊢
                  exact hcount
                · simp [eventForwardLoop, hf, hcalls]

/-- Scenario 3 backend trace: two ordinary events, then `ShutdownComplete`. -/
def scenario3 : List (Except String Event) :=
  [Except.ok { id := "1", msg := EventMsg.other 1 },
   Except.ok { id := "2", msg := EventMsg.other 2 },
   Except.ok { id := "3", msg := EventMsg.shutdownComplete }]

/-- Witness for C2, on the Scenario-3 trace: the `ShutdownComplete` event is
forwarded last, after the two ordinary events, with exactly three
`next_event` calls. -/
theorem shutdown_complete_unique_terminal_wit :
    countShutdown (eventForwardLoop scenario3).1 ≤ 1 ∧
    ∃ pre, (eventForwardLoop scenario3).1 =
        pre ++ [{ id := "3", msg := EventMsg.shutdownComplete }] ∧
      countShutdown pre = 0 ∧ (eventForwardLoop scenario3).2 = pre.length + 1 :=
  ⟨(shutdown_complete_unique_terminal scenario3).1,
   (shutdown_complete_unique_terminal scenario3).2
     { id := "3", msg := EventMsg.shutdownComplete } (by decide) (by decide)⟩

/-- C5: when `next_event` fails before any `ShutdownComplete` was observed,
the event-forward loop ends silently: the consumer receives exactly the
events forwarded before the failure — no error event and no other
notification is appended — and the failing call is the last `next_event`
call made. -/
theorem receive_error_silent_exit (pre : List Event) (msg : String)
    (rest : List (Except String Event))
    (h : ∀ e ∈ pre, isShutdownComplete e.msg = false) :
    eventForwardLoop (pre.map Except.ok ++ Except.error msg :: rest) =
      (pre, pre.length + 1) := by
  induction pre with
  | nil => rfl
  | cons e pre' ih =>
      have he : isShutdownComplete e.msg = false := h e (by simp)
      have ih' := ih (fun x hx => h x (by simp [hx]))
      simp [eventForwardLoop, he, ih']

/-- Witness for C5: one ordinary event, then a receive failure — the loop
forwards just that event and stops after its second `next_event` call. -/
theorem receive_error_silent_exit_wit :
    (∀ e ∈ [Event.mk "1" (EventMsg.other 7)],
      isShutdownComplete e.msg = false) ∧
    eventForwardLoop ([Event.mk "1" (EventMsg.other 7)].map Except.ok ++
        Except.error "stream closed" :: []) =
      ([Event.mk "1" (EventMsg.other 7)], 2) :=
  ⟨by decide,
   receive_error_silent_exit [Event.mk "1" (EventMsg.other 7)]
     "stream closed" [] (by decide)⟩

/-- A step made by the observed task is kept by `observedBy`. -/
theorem observedBy_cons_same {α : Type} (who : Bool) (v : α)
    (l : List (Bool × α)) :
    observedBy who ((who, v) :: l) = v :: observedBy who l := by
  simp [observedBy, List.filter_cons]

/-- A step made by task B is skipped by `observedBy true`. -/
theorem observedBy_true_cons_false {α : Type} (v : α) (l : List (Bool × α)) :
    observedBy true ((false, v) :: l) = observedBy true l := by
  simp [observedBy, List.filter_cons]

/-- A step made by task A is skipped by `observedBy false`. -/
theorem observedBy_false_cons_true {α : Type} (v : α) (l : List (Bool × α)) :
    observedBy false ((true, v) :: l) = observedBy false l := by
  simp [observedBy, List.filter_cons]

/-- In any interleaving, the observations of task A are exactly the accessor
values for the providers of scope A, taken at the call indices of A. -/
theorem runScopedCalls_observed_true {α : Type}
    (acc : Option EntropyProviders → Nat → SystemEnv → α)
    (a b : EntropyProviders) (sys : SystemEnv) :
    ∀ (sched : List Bool) (ca cb : Nat),
      observedBy true (runScopedCalls acc a b sys sched ca cb) =
        (List.range (sched.count true)).map (fun i => acc (some a) (ca + i) sys) := by
  intro sched
  induction sched with
  | nil => intro ca cb; rfl
  | cons w rest ih =>
      intro ca cb
      cases w with
      | true =>
          rw [show runScopedCalls acc a b sys (true :: rest) ca cb =
              (true, acc (some a) ca sys) ::
                runScopedCalls acc a b sys rest (ca + 1) cb from rfl,
            observedBy_cons_same, ih (ca + 1) cb, List.count_cons_self,
            List.range_succ_eq_map, List.map_cons, List.map_map]
          refine congrArg₂ _
            (congrArg (fun n => acc (some a) n sys) (Nat.add_zero ca).symm) ?_
          exact List.map_congr_left fun i _ =>
            congrArg (fun n => acc (some a) n sys) (by omega)
      | false =>
          rw [show runScopedCalls acc a b sys (false :: rest) ca cb =
              (false, acc (some b) cb sys) ::
                runScopedCalls acc a b sys rest ca (cb + 1) from rfl,
            observedBy_true_cons_false, ih ca (cb + 1),
            List.count_cons_of_ne (by decide)]

/-- In any interleaving, the observations of task B are exactly the accessor
values for the providers of scope B, taken at the call indices of B. -/
theorem runScopedCalls_observed_false {α : Type}
    (acc : Option EntropyProviders → Nat → SystemEnv → α)
    (a b : EntropyProviders) (sys : SystemEnv) :
    ∀ (sched : List Bool) (ca cb : Nat),
      observedBy false (runScopedCalls acc a b sys sched ca cb) =
        (List.range (sched.count false)).map (fun i => acc (some b) (cb + i) sys) := by
  intro sched
  induction sched with
  | nil => intro ca cb; rfl
  | cons w rest ih =>
      intro ca cb
      cases w with
      | false =>
          rw [show runScopedCalls acc a b sys (false :: rest) ca cb =
              (false, acc (some b) cb sys) ::
                runScopedCalls acc a b sys rest ca (cb + 1) from rfl,
            observedBy_cons_same, ih ca (cb + 1), List.count_cons_self,
            List.range_succ_eq_map, List.map_cons, List.map_map]
          refine congrArg₂ _
            (congrArg (fun n => acc (some b) n sys) (Nat.add_zero cb).symm) ?_
          exact List.map_congr_left fun i _ =>
            congrArg (fun n => acc (some b) n sys) (by omega)
      | true =>
          rw [show runScopedCalls acc a b sys (true :: rest) ca cb =
              (true, acc (some a) ca sys) ::
                runScopedCalls acc a b sys rest (ca + 1) cb from rfl,
            observedBy_false_cons_true, ih (ca + 1) cb,
            List.count_cons_of_ne (by decide)]

/-- C9: two concurrently active `EntropyProviders` scopes never
cross-contaminate.  For every interleaving schedule, the `entropy_uuid` and
`entropy_now` values observed by task A are exactly the configured sequences
of scope A (independent of the providers of scope B), and symmetrically for
B. -/
theorem entropy_scopes_never_cross_contaminate (a b : EntropyProviders)
    (sys : SystemEnv) (sched : List Bool) :
    observedBy true (runScopedCalls entropy_uuid a b sys sched 0 0) =
      (List.range (sched.count true)).map a.randomUuid ∧
    observedBy false (runScopedCalls entropy_uuid a b sys sched 0 0) =
      (List.range (sched.count false)).map b.randomUuid ∧
    observedBy true (runScopedCalls entropy_now a b sys sched 0 0) =
      (List.range (sched.count true)).map a.clockNow ∧
    observedBy false (runScopedCalls entropy_now a b sys sched 0 0) =
      (List.range (sched.count false)).map b.clockNow := by
  refine ⟨?_, ?_, ?_, ?_⟩
  · rw [runScopedCalls_observed_true]; simp [entropy_uuid]
  · rw [runScopedCalls_observed_false]; simp [entropy_uuid]
  · rw [runScopedCalls_observed_true]; simp [entropy_now]
  · rw [runScopedCalls_observed_false]; simp [entropy_now]

end Codex
